import Mathlib

/-!
Verification of the `alistair` HTTP client core against its specification.

The TypeScript sources embedded here are `src/http/utils.ts` (URL joining and
the `BodyInit` shape check) and `src/@lib/src/http/client.ts` (the request
builder, lifecycle hooks, retry engine and response transformer).

JavaScript strings are modelled as `List Char`; the URL separator `'/'` is
character code 47.
-/

namespace Alistair

/-- Function `join` from `src/http/utils.ts`:
`finalBase = base.charCodeAt(base.length-1) === 47 ? base : base + '/'`
(append a `'/'` unless the last character already is one; an empty `base` has
no last character, so it gets one appended), and
`finalPath = path.charCodeAt(0) === 47 ? path.substring(1) : path`
(strip exactly one leading `'/'`); the result is `finalBase + finalPath`. -/
def join (base path : List Char) : List Char :=
  (if base.getLast? = some '/' then base else base ++ ['/'])
    ++ (if path.head? = some '/' then path.drop 1 else path)

/-- The string with its maximal run of trailing `'/'` removed.  Spec-side
notion, used to say where the "junction" between base and path content lies. -/
def stripTrailingSep (s : List Char) : List Char :=
  (s.reverse.dropWhile (fun c => c = '/')).reverse

/-- The string with its maximal run of leading `'/'` removed. -/
def stripLeadingSep (s : List Char) : List Char :=
  s.dropWhile (fun c => c = '/')

/-- Modelled from the spec: "the joined URL contains exactly one separator
character at the junction between them — never zero and never two": the base
content and the path content appear with exactly one `'/'` between them. -/
def oneSeparatorJoined (base path : List Char) : Prop :=
  join base path = stripTrailingSep base ++ '/' :: stripLeadingSep path

theorem dropWhile_sep_eq_self {s : List Char} (h : s.head? ≠ some '/') :
    s.dropWhile (fun c => c = '/') = s := by
  cases s with
  | nil => rfl
  | cons c t =>
    have hc : c ≠ '/' := by
      intro hc; exact h (by simp [hc])
    simp [List.dropWhile_cons, hc]

theorem dropWhile_sep_eq_tail {s : List Char} (h1 : s.head? = some '/')
    (h2 : s.tail.head? ≠ some '/') :
    s.dropWhile (fun c => c = '/') = s.tail := by
  cases s with
  | nil => simp at h1
  | cons c t =>
    have hc : c = '/' := by simpa using h1
    subst hc
    simp only [List.dropWhile_cons]
    simpa using dropWhile_sep_eq_self (show t.head? ≠ some '/' by simpa using h2)

theorem stripTrailingSep_eq_self {s : List Char} (h : s.getLast? ≠ some '/') :
    stripTrailingSep s = s := by
  unfold stripTrailingSep
  rw [dropWhile_sep_eq_self (by simpa using h), List.reverse_reverse]

theorem stripTrailingSep_eq_dropLast {s : List Char} (h1 : s.getLast? = some '/')
    (h2 : s.dropLast.getLast? ≠ some '/') :
    stripTrailingSep s = s.dropLast := by
  unfold stripTrailingSep
  have htail : s.reverse.tail = s.dropLast.reverse := by
    cases s using List.reverseRecOn with
    | nil => rfl
    | append_singleton t c => simp
  rw [dropWhile_sep_eq_tail (by simpa using h1)
      (by rw [htail]; simpa using h2)]
  rw [htail, List.reverse_reverse]

/-- Reassembling a list that ends in `'/'` from its `dropLast`. -/
theorem eq_dropLast_append_of_getLast? {s : List Char}
    (h : s.getLast? = some '/') : s = s.dropLast ++ ['/'] := by
  cases s using List.reverseRecOn with
  | nil => simp at h
  | append_singleton t c =>
    have : c = '/' := by simpa using h
    simp [this]

/-- C7 fails as stated: stripping only a single leading separator from the
path, `join "a" "//b" = "a//b"` carries two separators at the junction. -/
theorem join_one_separator_cex :
    ¬ oneSeparatorJoined ['a'] ['/', '/', 'b'] := by
  unfold oneSeparatorJoined
  decide

/-- C7 (amended): provided `base` does not end in a doubled separator and
`path` does not begin with one, the joined URL contains exactly one separator
character at the junction — never zero and never two. -/
theorem join_one_separator
    (base path : List Char)
    (hb : base.getLast? = some '/' → base.dropLast.getLast? ≠ some '/')
    (hp : path.head? = some '/' → path.tail.head? ≠ some '/') :
    oneSeparatorJoined base path := by
  unfold oneSeparatorJoined join
  by_cases h1 : base.getLast? = some '/'
  · rw [if_pos h1, stripTrailingSep_eq_dropLast h1 (hb h1)]
    by_cases h2 : path.head? = some '/'
    · rw [if_pos h2, stripLeadingSep, dropWhile_sep_eq_tail h2 (hp h2)]
      conv_lhs => rw [eq_dropLast_append_of_getLast? h1]
      simp [List.drop_one]
    · rw [if_neg h2, stripLeadingSep, dropWhile_sep_eq_self h2]
      conv_lhs => rw [eq_dropLast_append_of_getLast? h1]
      simp
  · rw [if_neg h1, stripTrailingSep_eq_self h1]
    by_cases h2 : path.head? = some '/'
    · rw [if_pos h2, stripLeadingSep, dropWhile_sep_eq_tail h2 (hp h2)]
      simp [List.drop_one]
    · rw [if_neg h2, stripLeadingSep, dropWhile_sep_eq_self h2]
      simp

/-- Witness for C7 (amended): a base with one trailing separator and a path
with one leading separator join with exactly one separator. -/
theorem join_one_separator_witness :
    oneSeparatorJoined ['a', '/'] ['/', 'b'] :=
  join_one_separator ['a', '/'] ['/', 'b'] (by decide) (by decide)

/-! ## Data model of the client (`src/@lib/src/http/client.ts`)

JSON-serialisable values are a mutual inductive (objects and arrays carry
their children directly to keep recursion structural). -/

mutual

inductive Json where
  | null : Json
  | bool (b : Bool) : Json
  | num (n : Int) : Json
  | str (s : String) : Json
  | arr (elems : JsonList) : Json
  | obj (fields : JsonFields) : Json
  deriving DecidableEq

inductive JsonList where
  | nil : JsonList
  | cons (head : Json) (tail : JsonList) : JsonList
  deriving DecidableEq

inductive JsonFields where
  | nil : JsonFields
  | cons (key : String) (val : Json) (tail : JsonFields) : JsonFields
  deriving DecidableEq

end

/-- JSON string escaping for `JSON.stringify` (platform model; the escapes for
control characters, which no request in scope contains, are elided). -/
def escapeJsonChar (c : Char) : String :=
  if c = '"' then "\\\"" else if c = '\\' then "\\\\" else String.singleton c

def escapeJsonString (s : String) : String :=
  String.join (s.data.map escapeJsonChar)

mutual

/-- Platform model of `JSON.stringify` on JSON-serialisable values. -/
def Json.stringify : Json → String
  | .null => "null"
  | .bool true => "true"
  | .bool false => "false"
  | .num n => toString n
  | .str s => "\"" ++ escapeJsonString s ++ "\""
  | .arr elems => "[" ++ JsonList.stringifyElems elems ++ "]"
  | .obj fields => "\x7b" ++ JsonFields.stringifyFields fields ++ "\x7d"

def JsonList.stringifyElems : JsonList → String
  | .nil => ""
  | .cons head .nil => Json.stringify head
  | .cons head (.cons h t) =>
      Json.stringify head ++ "," ++ JsonList.stringifyElems (.cons h t)

def JsonFields.stringifyFields : JsonFields → String
  | .nil => ""
  | .cons key val .nil => "\"" ++ escapeJsonString key ++ "\":" ++ Json.stringify val
  | .cons key val (.cons k v t) =>
      "\"" ++ escapeJsonString key ++ "\":" ++ Json.stringify val ++ ","
        ++ JsonFields.stringifyFields (.cons k v t)

end

/-- The dynamic shapes a caller-supplied `body` can take (`config.body` has
static type `unknown`).  `undefined` is represented one level up, as
`Option BodyVal` with `none` for `undefined`, matching
`const {body: userBody = undefined, ...} = config`. -/
inductive BodyVal where
  | nul : BodyVal
  | str (s : String) : BodyVal
  | stream : BodyVal
  | blob : BodyVal
  | formData : BodyVal
  | urlSearchParams : BodyVal
  | arrayBuffer : BodyVal
  | bufferView : BodyVal
  | num (n : Int) : BodyVal
  | bool (b : Bool) : BodyVal
  | arr (elems : JsonList) : BodyVal
  | obj (fields : JsonFields) : BodyVal
  deriving DecidableEq

/-- Function `isBodyInit` from `src/http/utils.ts`: `typeof body === 'string'`, or an
instance of `ReadableStream`, `Blob`, `FormData`, `URLSearchParams`,
`ArrayBuffer`, or an `ArrayBuffer` view.  `null`, plain objects, arrays,
numbers and booleans all fail every check. -/
def isBodyInit : BodyVal → Bool
  | .str _ => true
  | .stream => true
  | .blob => true
  | .formData => true
  | .urlSearchParams => true
  | .arrayBuffer => true
  | .bufferView => true
  | _ => false

/-- Platform model of `JSON.stringify` applied to a body value.  The exotic
`BodyInit` shapes serialise as empty objects, which no claim exercises: the
builder only stringifies under a JSON (or absent) `Content-Type`. -/
def BodyVal.jsonStringify : BodyVal → String
  | .nul => "null"
  | .str s => Json.stringify (.str s)
  | .stream => "\x7b\x7d"
  | .blob => "\x7b\x7d"
  | .formData => "\x7b\x7d"
  | .urlSearchParams => "\x7b\x7d"
  | .arrayBuffer => "\x7b\x7d"
  | .bufferView => "\x7b\x7d"
  | .num n => Json.stringify (.num n)
  | .bool b => Json.stringify (.bool b)
  | .arr elems => Json.stringify (.arr elems)
  | .obj fields => Json.stringify (.obj fields)

/-- The `Headers` class (platform model): an ordered list of name/value
pairs with case-insensitive names. -/
structure Headers where
  entries : List (String × String)
  deriving DecidableEq

/-- ASCII lowercasing of a header name (the platform treats header names
case-insensitively). -/
def lowerString (s : String) : String := ⟨s.data.map Char.toLower⟩

def headerNameMatches (name key : String) : Bool :=
  lowerString key = lowerString name

/-- Method `Headers.prototype.get`: `null` when absent, otherwise the values of all
matching entries joined with `", "`. -/
def Headers.get (h : Headers) (name : String) : Option String :=
  match h.entries.filter (fun e => headerNameMatches name e.1) with
  | [] => none
  | es => some (String.intercalate ", " (es.map Prod.snd))

/-- Method `Headers.prototype.has`. -/
def Headers.has (h : Headers) (name : String) : Bool :=
  h.entries.any (fun e => headerNameMatches name e.1)

/-- Method `Headers.prototype.set`: drop any entries with the name, record the new
single value. -/
def Headers.set (h : Headers) (name value : String) : Headers :=
  ⟨h.entries.filter (fun e => !headerNameMatches name e.1) ++ [(name, value)]⟩

/-- A transport-level request (`new Request(url, init)`): the URL from
`join`, the fixed method, the final headers and the final `init.body`
(`none` when no body was set). -/
structure Request where
  url : List Char
  method : String
  headers : Headers
  body : Option BodyVal
  deriving DecidableEq

/-- A transport-level response: the `ok` flag steering the retry engine and
the `status` used in error messages. -/
structure Response where
  ok : Bool
  status : Nat
  deriving DecidableEq

/-- Static method `HTTPClientError.getErrorMessage`. -/
def getErrorMessage (count : Nat) (response : Response) : String :=
  "Request failed after " ++ toString count ++ " tries with status "
    ++ toString response.status

/-- The `HTTPClientError` class: `count`, `request`, `response` and the
`Error` message installed by the constructor. -/
structure HTTPClientError where
  count : Nat
  request : Request
  response : Response
  message : String
  deriving DecidableEq

/-- Constructor `new HTTPClientError(count, request, response)`: the constructor calls
`super(HTTPClientError.getErrorMessage(count, response))`. -/
def HTTPClientError.make (count : Nat) (request : Request)
    (response : Response) : HTTPClientError :=
  ⟨count, request, response, getErrorMessage count response⟩

/-- A thrown JavaScript value: an `HTTPClientError`, a plain
`new Error(message)`, or anything else a user hook throws. -/
inductive JSError where
  | client (e : HTTPClientError)
  | jsError (message : String)
  | custom (id : Nat)
  deriving DecidableEq

/-- The dynamic value a failure hook's promise resolves to.  The static type
is `Request | void | undefined`, but the engine checks `instanceof Request`
at runtime, so other shapes (here `null` and arbitrary truthy objects) are
representable too. -/
inductive HookVal where
  | req (r : Request)
  | undef
  | nul
  | obj (id : Nat)
  deriving DecidableEq

/-- The `Lifecycle` interface.  A hook's promise either resolves (`.ok`) or
rejects with a thrown value (`.error`). -/
structure Lifecycle where
  before : Request → Except JSError Request
  failure : Nat → Request → Response → Except JSError HookVal

/-- Definition `defaultLifecycle`: identity `before`; `failure` throws
`new HTTPClientError(count, request, response)`. -/
def defaultLifecycle : Lifecycle where
  before := fun req => .ok req
  failure := fun count request response =>
    .error (.client (HTTPClientError.make count request response))

/-- Type `Partial<Lifecycle>`, as supplied in `UserOptions`. -/
structure PartialLifecycle where
  before : Option (Request → Except JSError Request)
  failure : Option (Nat → Request → Response → Except JSError HookVal)

/-- The spread merge `{...defaultLifecycle, ...userOptions.lifecycle}` (an
absent `lifecycle` object spreads nothing). -/
def mergeLifecycle (user : Option PartialLifecycle) : Lifecycle :=
  match user with
  | none => defaultLifecycle
  | some u =>
    ⟨u.before.getD defaultLifecycle.before, u.failure.getD defaultLifecycle.failure⟩

/-- The merged options a client closes over: `base`, `transform` and the
merged lifecycle. -/
structure CompleteOptions (T : Type) where
  base : List Char
  transform : Response → Except JSError T
  lifecycle : Lifecycle

/-- Observable events of one logical call, in order of occurrence: the
`before` hook invocation, each transport send (`fetch`), each `failure` hook
invocation, and the `transform` invocation. -/
inductive Event where
  | beforeCall (request : Request)
  | send (request : Request)
  | failureCall (count : Nat) (request : Request) (response : Response)
  | transformCall (response : Response)
  deriving DecidableEq

def Event.isSend : Event → Bool
  | .send _ => true
  | _ => false

def Event.isBeforeCall : Event → Bool
  | .beforeCall _ => true
  | _ => false

def Event.isFailureCall : Event → Bool
  | .failureCall _ _ _ => true
  | _ => false

def Event.isTransformCall : Event → Bool
  | .transformCall _ => true
  | _ => false

def sendCount (evs : List Event) : Nat := (evs.filter Event.isSend).length

def beforeCount (evs : List Event) : Nat :=
  (evs.filter Event.isBeforeCall).length

def failureCallCount (evs : List Event) : Nat :=
  (evs.filter Event.isFailureCall).length

def transformCount (evs : List Event) : Nat :=
  (evs.filter Event.isTransformCall).length

/-- The attempt counts passed to the failure hook, in call order. -/
def failureCounts (evs : List Event) : List Nat :=
  evs.filterMap fun e =>
    match e with
    | .failureCall c _ _ => some c
    | _ => none

/-- Outcome of the retry engine `run`: the successful response, a thrown
value, or fuel exhaustion (an artifact of bounding the engine's unbounded
recursion; every theorem supplies sufficient fuel). -/
inductive RunResult where
  | success (response : Response)
  | error (e : JSError)
  | fuelOut
  deriving DecidableEq

/-- The retry engine `run(count, request)` of `client.ts`, instrumented with
the event trace:

```
const response = await fetch(request);
if (!response.ok) {
  const failure = await options.lifecycle.failure(count, request, response);
  if (failure instanceof Request) return run(count + 1, failure);
  else throw new HTTPClientError(count, request, response);
}
return response;
```

The transport is a function `fetch : Request → Response`; a rejected
`failure` promise propagates its thrown value. -/
def run (lc : Lifecycle) (fetch : Request → Response) :
    Nat → Nat → Request → List Event × RunResult
  | 0, _, _ => ([], .fuelOut)
  | fuel + 1, count, request =>
    let response := fetch request
    if response.ok then
      ([.send request], .success response)
    else
      match lc.failure count request response with
      | .error e =>
        ([.send request, .failureCall count request response], .error e)
      | .ok (.req r) =>
        let rest := run lc fetch fuel (count + 1) r
        (.send request :: .failureCall count request response :: rest.1, rest.2)
      | .ok _ =>
        ([.send request, .failureCall count request response],
          .error (.client (HTTPClientError.make count request response)))

/-- Outcome of one logical call. -/
inductive CallResult (T : Type) where
  | ok (value : T)
  | error (e : JSError)
  | fuelOut
  deriving DecidableEq

/-- Result of request construction: the built `Request`, or the thrown
`new Error('Cannot serialize ...')`. -/
inductive BuildResult where
  | ok (request : Request)
  | serializationError (message : String)
  deriving DecidableEq

/-- String `alistair-http/${version}` with the version inlined from `package.json`. -/
def userAgent : String := "alistair-http/1.15.0"

def serializationErrorMessage : String :=
  "Cannot serialize body when a Content-Type header was set. Maybe you forgot to stringify?"

/-- The header-construction prefix of `handler`:
`const headers = new Headers(userHeaders)` followed by the conditional
`headers.set('User-Agent', ...)` injecting the default outside browsers when
unset (`IS_BROWSER` comes from `constants.ts` and is passed as a
parameter). -/
def buildHeaders (isBrowser : Bool)
    (userHeaders : List (String × String)) : Headers :=
  if !isBrowser && !(Headers.mk userHeaders).has "User-Agent" then
    (Headers.mk userHeaders).set "User-Agent" userAgent
  else Headers.mk userHeaders

/-- The request-building prefix of `handler`: the headers above, the fixed
method, then body negotiation, then
`new Request(join(options.base, path), init)`. -/
def buildRequest (isBrowser : Bool) (base : List Char) (method : String)
    (path : List Char) (userHeaders : List (String × String))
    (userBody : Option BodyVal) : BuildResult :=
  let headers1 := buildHeaders isBrowser userHeaders
  match userBody with
  | none => .ok ⟨join base path, method, headers1, none⟩
  | some b =>
    match headers1.get "Content-Type" with
    | none =>
      .ok ⟨join base path, method, headers1.set "Content-Type" "application/json",
        some (.str b.jsonStringify)⟩
    | some ct =>
      if ct = "application/json" then
        .ok ⟨join base path, method, headers1, some (.str b.jsonStringify)⟩
      else if isBodyInit b then
        .ok ⟨join base path, method, headers1, some b⟩
      else
        .serializationError serializationErrorMessage

/-- One logical call (`handler` in `createMethod`): build the request, pass
it through `before` once, run the retry engine from count 1, then transform
the successful response.  Errors thrown at any stage propagate. -/
def handler {T : Type} (options : CompleteOptions T) (isBrowser : Bool)
    (fetch : Request → Response) (fuel : Nat) (method : String)
    (path : List Char) (userHeaders : List (String × String))
    (userBody : Option BodyVal) : List Event × CallResult T :=
  match buildRequest isBrowser options.base method path userHeaders userBody with
  | .serializationError msg => ([], .error (.jsError msg))
  | .ok defaultRequest =>
    match options.lifecycle.before defaultRequest with
    | .error e => ([.beforeCall defaultRequest], .error e)
    | .ok actualRequest =>
      let runOut := run options.lifecycle fetch fuel 1 actualRequest
      match runOut.2 with
      | .fuelOut => (.beforeCall defaultRequest :: runOut.1, .fuelOut)
      | .error e => (.beforeCall defaultRequest :: runOut.1, .error e)
      | .success response =>
        match options.transform response with
        | .error e =>
          (.beforeCall defaultRequest :: runOut.1 ++ [.transformCall response],
            .error e)
        | .ok t =>
          (.beforeCall defaultRequest :: runOut.1 ++ [.transformCall response],
            .ok t)

/-! ## Unfolding equations for the retry engine -/

theorem run_ok {lc : Lifecycle} {fetch : Request → Response} {fuel count : Nat}
    {request : Request} (h : (fetch request).ok = true) :
    run lc fetch (fuel + 1) count request =
      ([.send request], .success (fetch request)) := by
  unfold run
  simp [h]

theorem run_hook_throw {lc : Lifecycle} {fetch : Request → Response}
    {fuel count : Nat} {request : Request} {e : JSError}
    (h : (fetch request).ok = false)
    (he : lc.failure count request (fetch request) = .error e) :
    run lc fetch (fuel + 1) count request =
      ([.send request, .failureCall count request (fetch request)], .error e) := by
  unfold run
  simp [h, he]

theorem run_hook_retry {lc : Lifecycle} {fetch : Request → Response}
    {fuel count : Nat} {request r : Request}
    (h : (fetch request).ok = false)
    (hr : lc.failure count request (fetch request) = .ok (.req r)) :
    run lc fetch (fuel + 1) count request =
      (.send request :: .failureCall count request (fetch request)
          :: (run lc fetch fuel (count + 1) r).1,
        (run lc fetch fuel (count + 1) r).2) := by
  conv_lhs => rw [run]
  simp [h, hr]

theorem run_hook_decline {lc : Lifecycle} {fetch : Request → Response}
    {fuel count : Nat} {request : Request} {v : HookVal}
    (h : (fetch request).ok = false)
    (hv : lc.failure count request (fetch request) = .ok v)
    (hnr : ∀ r, v ≠ .req r) :
    run lc fetch (fuel + 1) count request =
      ([.send request, .failureCall count request (fetch request)],
        .error (.client (HTTPClientError.make count request (fetch request)))) := by
  unfold run
  cases v with
  | req r => exact absurd rfl (hnr r)
  | undef => simp [h, hv]
  | nul => simp [h, hv]
  | obj id => simp [h, hv]

/-! ## Header lemmas -/

theorem Headers.get_set_same (h : Headers) (n v : String) :
    (h.set n v).get n = some v := by
  unfold Headers.get Headers.set
  have h1 : (h.entries.filter (fun e => !headerNameMatches n e.1)).filter
      (fun e => headerNameMatches n e.1) = [] := by
    rw [List.filter_filter]
    have : ∀ e ∈ h.entries,
        (headerNameMatches n e.1 && !headerNameMatches n e.1) = false := by
      intro e _
      cases headerNameMatches n e.1 <;> rfl
    calc h.entries.filter (fun e => headerNameMatches n e.1 && !headerNameMatches n e.1)
        = h.entries.filter (fun _ => false) := List.filter_congr this
      _ = [] := List.filter_false h.entries
  have h2 : headerNameMatches n n = true := by
    simp [headerNameMatches]
  simp only [List.filter_append, h1, List.nil_append, List.filter_cons,
    List.filter_nil, h2]
  rfl

theorem Headers.get_set_ne (h : Headers) (n v n' : String)
    (hne : lowerString n ≠ lowerString n') :
    (h.set n v).get n' = h.get n' := by
  unfold Headers.get Headers.set
  have hq : headerNameMatches n' n = false := by
    simp [headerNameMatches, hne]
  have h1 : (h.entries.filter (fun e => !headerNameMatches n e.1)).filter
      (fun e => headerNameMatches n' e.1)
      = h.entries.filter (fun e => headerNameMatches n' e.1) := by
    rw [List.filter_filter]
    refine List.filter_congr ?_
    intro e _
    cases hm : headerNameMatches n' e.1
    · simp
    · have he1 : lowerString e.1 = lowerString n' := by
        simpa [headerNameMatches] using hm
      have hne' : headerNameMatches n e.1 = false := by
        simp only [headerNameMatches, he1, decide_eq_false_iff_not]
        exact fun hh => hne hh.symm
      simp [hne']
  simp only [List.filter_append, h1, List.filter_cons, List.filter_nil, hq]
  simp

/-! ## Trace-count lemmas -/

@[simp] theorem sendCount_nil : sendCount [] = 0 := rfl

@[simp] theorem sendCount_cons (e : Event) (evs : List Event) :
    sendCount (e :: evs) = (if e.isSend then 1 else 0) + sendCount evs := by
  by_cases h : e.isSend = true <;>
    simp [sendCount, List.filter_cons, h, Nat.add_comm]

@[simp] theorem beforeCount_nil : beforeCount [] = 0 := rfl

@[simp] theorem beforeCount_cons (e : Event) (evs : List Event) :
    beforeCount (e :: evs) = (if e.isBeforeCall then 1 else 0) + beforeCount evs := by
  by_cases h : e.isBeforeCall = true <;>
    simp [beforeCount, List.filter_cons, h, Nat.add_comm]

@[simp] theorem failureCallCount_nil : failureCallCount [] = 0 := rfl

@[simp] theorem failureCallCount_cons (e : Event) (evs : List Event) :
    failureCallCount (e :: evs) =
      (if e.isFailureCall then 1 else 0) + failureCallCount evs := by
  by_cases h : e.isFailureCall = true <;>
    simp [failureCallCount, List.filter_cons, h, Nat.add_comm]

@[simp] theorem transformCount_nil : transformCount [] = 0 := rfl

@[simp] theorem transformCount_cons (e : Event) (evs : List Event) :
    transformCount (e :: evs) =
      (if e.isTransformCall then 1 else 0) + transformCount evs := by
  by_cases h : e.isTransformCall = true <;>
    simp [transformCount, List.filter_cons, h, Nat.add_comm]

/-- The retry engine never emits a `beforeCall` event: `before` runs outside
`run`, once, in `handler`. -/
theorem run_beforeCount_zero (lc : Lifecycle) (fetch : Request → Response) :
    ∀ fuel count request, beforeCount (run lc fetch fuel count request).1 = 0 := by
  intro fuel
  induction fuel with
  | zero => intro count request; rfl
  | succ fuel ih =>
    intro count request
    by_cases h : (fetch request).ok = true
    · rw [run_ok h]; rfl
    · rw [Bool.not_eq_true] at h
      cases hv : lc.failure count request (fetch request) with
      | error e => rw [run_hook_throw h hv]; rfl
      | ok v =>
        cases v with
        | req r =>
          rw [run_hook_retry h hv]
          simpa [Event.isBeforeCall] using ih (count + 1) r
        | undef =>
          rw [run_hook_decline h hv (fun r hr => HookVal.noConfusion hr)]; rfl
        | nul =>
          rw [run_hook_decline h hv (fun r hr => HookVal.noConfusion hr)]; rfl
        | obj id =>
          rw [run_hook_decline h hv (fun r hr => HookVal.noConfusion hr)]; rfl

/-- When every response is non-ok and the failure hook retries strictly below
`K` and declines at `K`, `run` started at attempt `c ≤ K` performs
`K + 1 - c` sends, consults the hook at attempts `c, c+1, ..., K`, and ends
in the `HTTPClientError` built at attempt `K`. -/
theorem run_all_fail (lc : Lifecycle) (fetch : Request → Response) (K : Nat)
    (hresp : ∀ r, (fetch r).ok = false)
    (hret : ∀ c req, c < K →
      ∃ r', lc.failure c req (fetch req) = .ok (.req r'))
    (hstop : ∀ c req, K ≤ c → lc.failure c req (fetch req) = .ok .undef) :
    ∀ fuel c req, c ≤ K → K + 1 ≤ fuel + c →
      ∃ evs lastReq,
        run lc fetch fuel c req =
          (evs, .error (.client (HTTPClientError.make K lastReq (fetch lastReq)))) ∧
        sendCount evs = K + 1 - c ∧
        failureCounts evs = List.range' c (K + 1 - c) := by
  intro fuel
  induction fuel with
  | zero => intro c req hc hf; omega
  | succ fuel ih =>
    intro c req hc hf
    rcases Nat.lt_or_ge c K with hlt | hge
    · obtain ⟨r', hr'⟩ := hret c req hlt
      rw [run_hook_retry (hresp req) hr']
      obtain ⟨evs', lastReq, heq, hsend, hcounts⟩ := ih (c + 1) r' (by omega) (by omega)
      rw [heq]
      refine ⟨_, lastReq, rfl, ?_, ?_⟩
      · simp [Event.isSend]
        omega
      · have hn : K + 1 - c = (K - c) + 1 := by omega
        have hn' : K + 1 - (c + 1) = K - c := by omega
        rw [hn' ] at hcounts
        simp only [failureCounts, List.filterMap_cons] at hcounts ⊢
        rw [hn, List.range'_succ]
        simpa using hcounts
    · have hck : c = K := Nat.le_antisymm hc hge
      subst hck
      have hv := hstop c req (Nat.le_refl c)
      rw [run_hook_decline (hresp req) hv (fun r hr => HookVal.noConfusion hr)]
      refine ⟨_, req, rfl, ?_, ?_⟩
      · simp [Event.isSend]
      · have : c + 1 - c = 1 := by omega
        rw [this]
        simp [failureCounts, List.range']

/-! ## Concrete fixtures for witnesses -/

def respServerError : Response := ⟨false, 500⟩

def fetchAlwaysFail : Request → Response := fun _ => respServerError

def reqX : Request := ⟨['x'], "get", ⟨[]⟩, none⟩

/-- The request `buildRequest` produces for base `"x"`, path `"/p"`, no
headers, no body, in a browser context. -/
def reqBuilt : Request := ⟨['x', '/', 'p'], "get", ⟨[]⟩, none⟩

def lcDeclineAlways : Lifecycle := ⟨fun r => .ok r, fun _ _ _ => .ok .undef⟩

def lcObjAlways : Lifecycle := ⟨fun r => .ok r, fun _ _ _ => .ok (.obj 0)⟩

/-- A failure hook that retries with the same request while the attempt
count is below 2 and declines afterwards. -/
def lcRetryBelow2 : Lifecycle :=
  ⟨fun r => .ok r, fun c req _ => if c < 2 then .ok (.req req) else .ok .undef⟩

def optionsRetryBelow2 : CompleteOptions Nat :=
  ⟨['x'], fun _ => .ok 0, lcRetryBelow2⟩

/-! ## Claim theorems: the retry engine -/

/-- C1: for any failure hook that supplies a replacement request whenever
`attemptCount < K` and declines from `K` on (any `K ≥ 1`), a logical call
whose responses are all non-ok performs exactly `K` transport sends and
terminates with a `ClientError` whose attempt count equals `K`; the attempt
counts passed to the hook are `1, 2, ..., K`: the count starts at 1 on the
first send, rises by exactly 1 per retry and is never reset within the
call. -/
theorem handler_exhausts_exactly_K_attempts {T : Type}
    (options : CompleteOptions T) (isBrowser : Bool)
    (fetch : Request → Response) (fuel K : Nat) (method : String)
    (path : List Char) (userHeaders : List (String × String))
    (userBody : Option BodyVal) (dr ar : Request)
    (hK : 1 ≤ K)
    (hbuild : buildRequest isBrowser options.base method path userHeaders
      userBody = .ok dr)
    (hbefore : options.lifecycle.before dr = .ok ar)
    (hresp : ∀ r, (fetch r).ok = false)
    (hret : ∀ c req, c < K →
      ∃ r', options.lifecycle.failure c req (fetch req) = .ok (.req r'))
    (hstop : ∀ c req, K ≤ c →
      options.lifecycle.failure c req (fetch req) = .ok .undef)
    (hfuel : K ≤ fuel) :
    ∃ evs lastReq,
      handler options isBrowser fetch fuel method path userHeaders userBody =
        (evs, .error (.client (HTTPClientError.make K lastReq (fetch lastReq)))) ∧
      (HTTPClientError.make K lastReq (fetch lastReq)).count = K ∧
      sendCount evs = K ∧
      failureCounts evs = List.range' 1 K := by
  obtain ⟨evs', lastReq, heq, hsend, hcounts⟩ :=
    run_all_fail options.lifecycle fetch K hresp hret hstop fuel 1 ar hK (by omega)
  have hK1 : K + 1 - 1 = K := by omega
  rw [hK1] at hsend hcounts
  simp only [handler, hbuild, hbefore, heq]
  refine ⟨Event.beforeCall dr :: evs', lastReq, rfl, rfl, ?_, ?_⟩
  · simp [Event.isSend, hsend]
  · simpa [failureCounts, List.filterMap_cons] using hcounts

/-- Witness for C1 at `K = 2`: a hook retrying below attempt 2, a transport
that always returns status 500. -/
theorem handler_exhausts_exactly_K_attempts_witness :
    ∃ evs lastReq,
      handler optionsRetryBelow2 true fetchAlwaysFail 2 "get" ['/', 'p'] []
          none =
        (evs, .error (.client (HTTPClientError.make 2 lastReq
          (fetchAlwaysFail lastReq)))) ∧
      (HTTPClientError.make 2 lastReq (fetchAlwaysFail lastReq)).count = 2 ∧
      sendCount evs = 2 ∧
      failureCounts evs = List.range' 1 2 :=
  handler_exhausts_exactly_K_attempts optionsRetryBelow2 true fetchAlwaysFail
    2 2 "get" ['/', 'p'] [] none reqBuilt reqBuilt (by omega) rfl rfl
    (fun _ => rfl)
    (fun c req hc => ⟨req, by simp [optionsRetryBelow2, lcRetryBelow2, hc]⟩)
    (fun c req hc => by
      have : ¬ c < 2 := by omega
      simp [optionsRetryBelow2, lcRetryBelow2, this])
    (by omega)

/-- C3: on a non-ok response, a failure hook resolving to no replacement
request terminates the call with a `ClientError` carrying the current
attempt count, current request and the non-ok response, while a failure hook
that itself throws has its error propagate verbatim, not wrapped. -/
theorem failure_decline_wraps_and_hook_throw_propagates
    (lc : Lifecycle) (fetch : Request → Response) (fuel count : Nat)
    (request : Request) (hok : (fetch request).ok = false) :
    (∀ v, lc.failure count request (fetch request) = .ok v →
      (∀ r, v ≠ HookVal.req r) →
      run lc fetch (fuel + 1) count request =
        ([.send request, .failureCall count request (fetch request)],
          .error (.client (HTTPClientError.make count request (fetch request))))) ∧
    (∀ e, lc.failure count request (fetch request) = .error e →
      run lc fetch (fuel + 1) count request =
        ([.send request, .failureCall count request (fetch request)],
          .error e)) :=
  ⟨fun _ hv hnr => run_hook_decline hok hv hnr,
    fun _ he => run_hook_throw hok he⟩

/-- Witness for C3: a hook that always resolves to `undefined`, against a
transport that always returns status 500. -/
theorem failure_decline_wraps_and_hook_throw_propagates_witness :
    run lcDeclineAlways fetchAlwaysFail (0 + 1) 1 reqX =
      ([.send reqX, .failureCall 1 reqX (fetchAlwaysFail reqX)],
        .error (.client (HTTPClientError.make 1 reqX
          (fetchAlwaysFail reqX)))) :=
  (failure_decline_wraps_and_hook_throw_propagates lcDeclineAlways
    fetchAlwaysFail 0 1 reqX rfl).1 .undef rfl
    (fun _ hr => HookVal.noConfusion hr)

/-- C9: the retry/stop decision is an `instanceof Request` test on the
hook's resolved value: a truthy non-Request object is treated as declining,
exactly like `undefined`, and the call terminates with the `ClientError`. -/
theorem non_request_resolution_declines
    (lc : Lifecycle) (fetch : Request → Response) (fuel count : Nat)
    (request : Request) (id : Nat)
    (hok : (fetch request).ok = false)
    (hobj : lc.failure count request (fetch request) = .ok (.obj id)) :
    run lc fetch (fuel + 1) count request =
      ([.send request, .failureCall count request (fetch request)],
        .error (.client (HTTPClientError.make count request (fetch request)))) :=
  run_hook_decline hok hobj (fun _ hr => HookVal.noConfusion hr)

/-- Witness for C9: a hook resolving to a truthy non-Request object. -/
theorem non_request_resolution_declines_witness :
    run lcObjAlways fetchAlwaysFail (0 + 1) 1 reqX =
      ([.send reqX, .failureCall 1 reqX (fetchAlwaysFail reqX)],
        .error (.client (HTTPClientError.make 1 reqX (fetchAlwaysFail reqX)))) :=
  non_request_resolution_declines lcObjAlways fetchAlwaysFail 0 1 reqX 0
    rfl rfl

@[simp] theorem beforeCount_append (a b : List Event) :
    beforeCount (a ++ b) = beforeCount a + beforeCount b := by
  simp [beforeCount, List.filter_append]

def fetchAlwaysOk : Request → Response := fun _ => ⟨true, 200⟩

def transformOk0 : Response → Except JSError Nat := fun _ => .ok 0

/-- C2: the `before` hook runs exactly once per logical call, strictly
before the first transport send — it opens the event trace and never occurs
again — and a retried send uses exactly the request the failure hook
resolved to, without passing it through `before`. -/
theorem before_once_and_retry_bypasses_before {T : Type}
    (options : CompleteOptions T) (isBrowser : Bool)
    (fetch : Request → Response) (fuel : Nat) (method : String)
    (path : List Char) (userHeaders : List (String × String))
    (userBody : Option BodyVal) (dr : Request)
    (hbuild : buildRequest isBrowser options.base method path userHeaders
      userBody = .ok dr) :
    (∃ rest,
      (handler options isBrowser fetch fuel method path userHeaders
        userBody).1 = .beforeCall dr :: rest ∧ beforeCount rest = 0) ∧
    (∀ fuel' count req r', (fetch req).ok = false →
      options.lifecycle.failure count req (fetch req) = .ok (.req r') →
      run options.lifecycle fetch (fuel' + 1) count req =
        (.send req :: .failureCall count req (fetch req)
            :: (run options.lifecycle fetch fuel' (count + 1) r').1,
          (run options.lifecycle fetch fuel' (count + 1) r').2)) := by
  refine ⟨?_, fun _ _ _ _ hok hfail => run_hook_retry hok hfail⟩
  cases hb : options.lifecycle.before dr with
  | error e =>
    exact ⟨[], by simp [handler, hbuild, hb], rfl⟩
  | ok ar =>
    have hzero := run_beforeCount_zero options.lifecycle fetch fuel 1 ar
    cases hr : (run options.lifecycle fetch fuel 1 ar).2 with
    | fuelOut =>
      exact ⟨(run options.lifecycle fetch fuel 1 ar).1,
        by simp [handler, hbuild, hb, hr], hzero⟩
    | error e =>
      exact ⟨(run options.lifecycle fetch fuel 1 ar).1,
        by simp [handler, hbuild, hb, hr], hzero⟩
    | success resp =>
      cases ht : options.transform resp with
      | error e =>
        refine ⟨(run options.lifecycle fetch fuel 1 ar).1
          ++ [.transformCall resp], by simp [handler, hbuild, hb, hr, ht], ?_⟩
        simp [hzero, Event.isBeforeCall]
      | ok t =>
        refine ⟨(run options.lifecycle fetch fuel 1 ar).1
          ++ [.transformCall resp], by simp [handler, hbuild, hb, hr, ht], ?_⟩
        simp [hzero, Event.isBeforeCall]

/-- Witness for C2: a concrete client with a retrying hook, and a concrete
retried send continuing with the hook's returned request. -/
theorem before_once_and_retry_bypasses_before_witness :
    (∃ rest,
      (handler optionsRetryBelow2 true fetchAlwaysFail 1 "get" ['/', 'p'] []
        none).1 = .beforeCall reqBuilt :: rest ∧ beforeCount rest = 0) ∧
    run optionsRetryBelow2.lifecycle fetchAlwaysFail (0 + 1) 1 reqX =
      (.send reqX :: .failureCall 1 reqX (fetchAlwaysFail reqX)
          :: (run optionsRetryBelow2.lifecycle fetchAlwaysFail 0 (1 + 1)
            reqX).1,
        (run optionsRetryBelow2.lifecycle fetchAlwaysFail 0 (1 + 1) reqX).2) :=
  have h := before_once_and_retry_bypasses_before optionsRetryBelow2 true
    fetchAlwaysFail 1 "get" ['/', 'p'] [] none reqBuilt rfl
  ⟨h.1, h.2 0 1 reqX reqX rfl rfl⟩

/-- C4: a client with no lifecycle overrides, on a first non-ok response,
terminates at once with the `ClientError` at attempt count 1 after exactly
one send; the message reads "Request failed after 1 tries with status S"
with `S` the response status. -/
theorem default_client_first_nonok_throws {T : Type}
    (base : List Char) (transform : Response → Except JSError T)
    (isBrowser : Bool) (fetch : Request → Response) (fuel : Nat)
    (method : String) (path : List Char)
    (userHeaders : List (String × String)) (userBody : Option BodyVal)
    (dr : Request)
    (hbuild : buildRequest isBrowser base method path userHeaders userBody =
      .ok dr)
    (hfail : (fetch dr).ok = false) :
    handler ⟨base, transform, mergeLifecycle none⟩ isBrowser fetch (fuel + 1)
        method path userHeaders userBody =
      ([.beforeCall dr, .send dr, .failureCall 1 dr (fetch dr)],
        .error (.client (HTTPClientError.make 1 dr (fetch dr)))) ∧
    (HTTPClientError.make 1 dr (fetch dr)).count = 1 ∧
    (HTTPClientError.make 1 dr (fetch dr)).message =
      "Request failed after 1 tries with status "
        ++ toString (fetch dr).status := by
  have hthrow : (mergeLifecycle none).failure 1 dr (fetch dr) =
      .error (.client (HTTPClientError.make 1 dr (fetch dr))) := rfl
  have hrun := @run_hook_throw (mergeLifecycle none) fetch fuel 1 dr _
    hfail hthrow
  refine ⟨?_, rfl, rfl⟩
  simp only [handler, hbuild,
    show (mergeLifecycle none).before dr = .ok dr from rfl, hrun]

/-- Witness for C4: the default client against a transport answering 500. -/
theorem default_client_first_nonok_throws_witness :
    handler ⟨['x'], transformOk0, mergeLifecycle none⟩ true fetchAlwaysFail
        (0 + 1) "get" ['/', 'p'] [] none =
      ([.beforeCall reqBuilt, .send reqBuilt,
          .failureCall 1 reqBuilt (fetchAlwaysFail reqBuilt)],
        .error (.client (HTTPClientError.make 1 reqBuilt
          (fetchAlwaysFail reqBuilt)))) ∧
    (HTTPClientError.make 1 reqBuilt (fetchAlwaysFail reqBuilt)).count = 1 ∧
    (HTTPClientError.make 1 reqBuilt (fetchAlwaysFail reqBuilt)).message =
      "Request failed after 1 tries with status "
        ++ toString (fetchAlwaysFail reqBuilt).status :=
  default_client_first_nonok_throws ['x'] transformOk0 true fetchAlwaysFail
    0 "get" ['/', 'p'] [] none reqBuilt rfl rfl

/-- C8: when the first response is ok, the failure hook is consulted zero
times and the transform runs exactly once, on that response; a transform
error propagates unchanged (no retry, no wrapping) and a transform value is
returned. -/
theorem first_ok_response_transforms_once {T : Type}
    (options : CompleteOptions T) (isBrowser : Bool)
    (fetch : Request → Response) (fuel : Nat) (method : String)
    (path : List Char) (userHeaders : List (String × String))
    (userBody : Option BodyVal) (dr ar : Request)
    (hbuild : buildRequest isBrowser options.base method path userHeaders
      userBody = .ok dr)
    (hbefore : options.lifecycle.before dr = .ok ar)
    (hok : (fetch ar).ok = true) :
    (handler options isBrowser fetch (fuel + 1) method path userHeaders
        userBody).1 =
      [.beforeCall dr, .send ar, .transformCall (fetch ar)] ∧
    failureCallCount (handler options isBrowser fetch (fuel + 1) method path
      userHeaders userBody).1 = 0 ∧
    transformCount (handler options isBrowser fetch (fuel + 1) method path
      userHeaders userBody).1 = 1 ∧
    (∀ e, options.transform (fetch ar) = .error e →
      (handler options isBrowser fetch (fuel + 1) method path userHeaders
        userBody).2 = .error e) ∧
    (∀ t, options.transform (fetch ar) = .ok t →
      (handler options isBrowser fetch (fuel + 1) method path userHeaders
        userBody).2 = .ok t) := by
  have hrun := @run_ok options.lifecycle fetch fuel 1 ar hok
  have htrace : (handler options isBrowser fetch (fuel + 1) method path
      userHeaders userBody).1 =
      [.beforeCall dr, .send ar, .transformCall (fetch ar)] := by
    cases ht : options.transform (fetch ar) with
    | error e => simp [handler, hbuild, hbefore, hrun, ht]
    | ok t => simp [handler, hbuild, hbefore, hrun, ht]
  refine ⟨htrace, ?_, ?_, ?_, ?_⟩
  · rw [htrace]; rfl
  · rw [htrace]; rfl
  · intro e he
    simp [handler, hbuild, hbefore, hrun, he]
  · intro t ht
    simp [handler, hbuild, hbefore, hrun, ht]

/-- Witness for C8: an ok transport and the constant transform. -/
theorem first_ok_response_transforms_once_witness :
    (handler optionsRetryBelow2 true fetchAlwaysOk (0 + 1) "get" ['/', 'p']
        [] none).1 =
      [.beforeCall reqBuilt, .send reqBuilt,
        .transformCall (fetchAlwaysOk reqBuilt)] ∧
    failureCallCount (handler optionsRetryBelow2 true fetchAlwaysOk (0 + 1)
      "get" ['/', 'p'] [] none).1 = 0 ∧
    transformCount (handler optionsRetryBelow2 true fetchAlwaysOk (0 + 1)
      "get" ['/', 'p'] [] none).1 = 1 ∧
    (∀ e, optionsRetryBelow2.transform (fetchAlwaysOk reqBuilt) = .error e →
      (handler optionsRetryBelow2 true fetchAlwaysOk (0 + 1) "get"
        ['/', 'p'] [] none).2 = .error e) ∧
    (∀ t, optionsRetryBelow2.transform (fetchAlwaysOk reqBuilt) = .ok t →
      (handler optionsRetryBelow2 true fetchAlwaysOk (0 + 1) "get"
        ['/', 'p'] [] none).2 = .ok t) :=
  first_ok_response_transforms_once optionsRetryBelow2 true fetchAlwaysOk 0
    "get" ['/', 'p'] [] none reqBuilt reqBuilt rfl rfl rfl

/-! ## Claim theorems: the request builder -/

/-- The `User-Agent` default injection never touches `Content-Type`. -/
theorem buildHeaders_get_ct (isBrowser : Bool)
    (userHeaders : List (String × String)) :
    (buildHeaders isBrowser userHeaders).get "Content-Type" =
      (Headers.mk userHeaders).get "Content-Type" := by
  unfold buildHeaders
  split
  · exact Headers.get_set_ne _ _ _ _ (by decide)
  · rfl

/-- C5: with a body present and the `Content-Type` header unset or exactly
`application/json`, the body is JSON-serialized before sending, and when the
header was unset it is force-set to `application/json`; in particular body
`{name: "a"}` with no `Content-Type` yields `Content-Type: application/json`
and body `{"name":"a"}`. -/
theorem build_serializes_json_body (isBrowser : Bool) (base : List Char)
    (method : String) (path : List Char)
    (userHeaders : List (String × String)) (b : BodyVal) :
    ((Headers.mk userHeaders).get "Content-Type" = none →
      ∃ req, buildRequest isBrowser base method path userHeaders (some b) =
          .ok req ∧
        req.body = some (.str b.jsonStringify) ∧
        req.headers.get "Content-Type" = some "application/json") ∧
    ((Headers.mk userHeaders).get "Content-Type" =
        some "application/json" →
      ∃ req, buildRequest isBrowser base method path userHeaders (some b) =
          .ok req ∧
        req.body = some (.str b.jsonStringify)) ∧
    buildRequest true base method path []
        (some (.obj (.cons "name" (.str "a") .nil))) =
      .ok ⟨join base path, method, ⟨[("Content-Type", "application/json")]⟩,
        some (.str "\x7b\"name\":\"a\"\x7d")⟩ := by
  refine ⟨?_, ?_, ?_⟩
  · intro hct
    simp only [buildRequest, buildHeaders_get_ct, hct]
    exact ⟨_, rfl, rfl, Headers.get_set_same _ _ _⟩
  · intro hct
    simp only [buildRequest, buildHeaders_get_ct, hct, if_true]
    exact ⟨_, rfl, rfl⟩
  · rfl

/-- Witness for C5: the unset-header case at a concrete client. -/
theorem build_serializes_json_body_witness :
    ∃ req, buildRequest true ['x'] "post" ['/', 'p'] []
        (some (.str "raw")) = .ok req ∧
      req.body = some (.str (BodyVal.str "raw").jsonStringify) ∧
      req.headers.get "Content-Type" = some "application/json" :=
  (build_serializes_json_body true ['x'] "post" ['/', 'p'] []
    (.str "raw")).1 rfl

/-- C6 fails as stated: the claim admits the "no body" sentinel (`null`)
among the accepted shapes under a caller-set non-JSON `Content-Type`, but
the builder rejects `null` with the serialization error instead of sending
it verbatim. -/
theorem custom_content_type_sentinel_cex :
    buildRequest true ['x'] "post" ['/', 'p']
        [("Content-Type", "text/plain")] (some .nul) =
      .serializationError serializationErrorMessage ∧
    buildRequest true ['x'] "post" ['/', 'p']
        [("Content-Type", "text/plain")] (some .nul) ≠
      .ok ⟨['x', '/', 'p'], "post", ⟨[("Content-Type", "text/plain")]⟩,
        some .nul⟩ := by
  refine ⟨rfl, ?_⟩
  intro h
  exact BuildResult.noConfusion h

/-- C6 (amended): with a body present and a caller-set `Content-Type` other
than `application/json`, a body outside the transport's body-init primitive
shapes — the `null` "no body" sentinel included among the rejected values —
fails request construction with the serialization error, before any
transport send and outside the failure-hook/retry path (the event trace is
empty); a body-init-shaped body is sent verbatim, unserialized. -/
theorem custom_content_type_body_check {T : Type}
    (options : CompleteOptions T) (isBrowser : Bool)
    (fetch : Request → Response) (fuel : Nat) (method : String)
    (path : List Char) (userHeaders : List (String × String))
    (b : BodyVal) (ct : String)
    (hct : (Headers.mk userHeaders).get "Content-Type" = some ct)
    (hne : ct ≠ "application/json") :
    (isBodyInit b = false →
      buildRequest isBrowser options.base method path userHeaders (some b) =
        .serializationError serializationErrorMessage ∧
      handler options isBrowser fetch fuel method path userHeaders (some b) =
        ([], .error (.jsError serializationErrorMessage))) ∧
    (isBodyInit b = true →
      ∃ req, buildRequest isBrowser options.base method path userHeaders
          (some b) = .ok req ∧
        req.body = some b) := by
  constructor
  · intro hbi
    have hb : buildRequest isBrowser options.base method path userHeaders
        (some b) = .serializationError serializationErrorMessage := by
      simp only [buildRequest, buildHeaders_get_ct, hct]
      rw [if_neg hne, if_neg (by simp [hbi])]
    exact ⟨hb, by simp only [handler, hb]⟩
  · intro hbi
    simp only [buildRequest, buildHeaders_get_ct, hct]
    rw [if_neg hne, if_pos hbi]
    exact ⟨_, rfl, rfl⟩

/-- Witness for C6 (amended): `Content-Type: text/plain` with a plain-object
body fails construction with the serialization error and an empty trace. -/
theorem custom_content_type_body_check_witness :
    buildRequest true optionsRetryBelow2.base "post" ['/', 'p']
        [("Content-Type", "text/plain")]
        (some (.obj (.cons "name" (.str "a") .nil))) =
      .serializationError serializationErrorMessage ∧
    handler optionsRetryBelow2 true fetchAlwaysFail 1 "post" ['/', 'p']
        [("Content-Type", "text/plain")]
        (some (.obj (.cons "name" (.str "a") .nil))) =
      ([], .error (.jsError serializationErrorMessage)) :=
  (custom_content_type_body_check optionsRetryBelow2 true fetchAlwaysFail 1
    "post" ['/', 'p'] [("Content-Type", "text/plain")]
    (.obj (.cons "name" (.str "a") .nil)) "text/plain" rfl
    (by decide)).1 rfl

/-- C10: only `undefined` is "no body present": `null` fails the body-init
shape check, so with a caller-set non-JSON `Content-Type` a `null` body
fails with the serialization error before any send, while an absent
(`undefined`) body skips body negotiation entirely and sends no body. -/
theorem null_body_rejected_with_custom_content_type {T : Type}
    (options : CompleteOptions T) (isBrowser : Bool)
    (fetch : Request → Response) (fuel : Nat) (method : String)
    (path : List Char) (userHeaders : List (String × String)) (ct : String)
    (hct : (Headers.mk userHeaders).get "Content-Type" = some ct)
    (hne : ct ≠ "application/json") :
    isBodyInit .nul = false ∧
    handler options isBrowser fetch fuel method path userHeaders
        (some .nul) =
      ([], .error (.jsError serializationErrorMessage)) ∧
    (∀ base method' path' uh,
      ∃ req, buildRequest isBrowser base method' path' uh none = .ok req ∧
        req.body = none) := by
  refine ⟨rfl, ?_, ?_⟩
  · have hb : buildRequest isBrowser options.base method path userHeaders
        (some .nul) = .serializationError serializationErrorMessage := by
      simp only [buildRequest, buildHeaders_get_ct, hct]
      rw [if_neg hne, if_neg (by simp [isBodyInit])]
    simp only [handler, hb]
  · intro base method' path' uh
    simp only [buildRequest]
    exact ⟨_, rfl, rfl⟩

/-- Witness for C10: `body: null` with `Content-Type: text/plain`. -/
theorem null_body_rejected_with_custom_content_type_witness :
    isBodyInit .nul = false ∧
    handler optionsRetryBelow2 true fetchAlwaysFail 1 "post" ['/', 'p']
        [("Content-Type", "text/plain")] (some .nul) =
      ([], .error (.jsError serializationErrorMessage)) ∧
    (∀ base method' path' uh,
      ∃ req, buildRequest true base method' path' uh none = .ok req ∧
        req.body = none) :=
  null_body_rejected_with_custom_content_type optionsRetryBelow2 true
    fetchAlwaysFail 1 "post" ['/', 'p'] [("Content-Type", "text/plain")]
    "text/plain" rfl (by decide)

end Alistair
